import Mathlib

/-!
Verification of the dodo agentic task-execution engine.

This file shallowly embeds the core of the repository in Lean:

* `src/dodo/llm/content.py` / `src/dodo/llm/message.py` — content variants and
  role-tagged messages (timestamps are elided: no behaviour here reads them);
* `src/dodo/tool_registry.py` — `ToolRegistry.execute_tool_calls`;
* `src/dodo/tools/control.py` — `complete_work` / `abort_work`;
* `src/dodo/runner/runner.py` — `TaskRunner.run` and its helpers;
* `src/dodo/runner/redo_runner.py` — `RedoRunner.replay`;
* `src/dodo/agent.py` — the `Agent` facade.

Python `Dict[str, Any]` tool arguments are embedded as association lists over a
small JSON value type; a user tool's `Params` validation together with its
`execute` body is embedded as one function returning `Except String ToolResult`
(`Except.error msg` models a raised exception with `str(e) = msg`), matching how
the registry treats both failure sources identically.  The asynchronous calls
are all sequential awaits in the source, so the embedding is direct state
threading.  The LLM adapter and the observe callback are universally quantified
functions.  `json.dumps` pretty-printing inside `complete_work` is abstracted by
a simple rendering function: no claim depends on its exact text.
-/

/-- The apostrophe character, used in the source's error message texts. -/
def apos : String := (Char.ofNat 39).toString

/-- Render an optional string the way a Python f-string renders it
(`None` prints as `"None"`). -/
def pyStr : Option String → String
  | none => "None"
  | some s => s

-- ======================================================================
-- Data model (src/dodo/llm/content.py, src/dodo/runner/run.py)
-- ======================================================================

/-- Task execution status (`TaskStatus` in run.py). -/
inductive TaskStatus
  | completed
  | aborted
deriving DecidableEq, Repr

/-- Tool execution result status (`ToolResultStatus` in content.py). -/
inductive ToolResultStatus
  | success
  | error
  | skipped
deriving DecidableEq, Repr

/-- A small JSON-like value type standing for Python `Any` values that flow
through tool arguments and structured output. -/
inductive JsonVal
  | str (s : String)
  | num (n : Int)
  | bool (b : Bool)
  | null
  | arr (xs : List JsonVal)
  | obj (fields : List (String × JsonVal))

/-- Tool-call arguments: `Dict[str, Any]` as an association list. -/
abbrev Args := List (String × JsonVal)

/-- Look up an argument by key (first binding wins, as in a Python dict built
from distinct keys). -/
def lookupArg (args : Args) (key : String) : Option JsonVal :=
  (List.find? (fun p => p.1 = key) args).map Prod.snd

/-- `ToolResult` content part (content.py): outcome of one tool execution.
It is a `Content` subclass in the source, hence carries `tag`/`lifespan`. -/
structure ToolResult where
  tool_call_id : Option String := none
  name : String
  status : ToolResultStatus
  error : Option String := none
  description : String := ""
  terminal : Bool := false
  tag : Option String := none
  lifespan : Option Int := none
deriving DecidableEq, Repr

instance : Inhabited ToolResult :=
  ⟨{ name := "", status := ToolResultStatus.success }⟩

/-- `ToolCall` (message.py): a model-emitted request to invoke a tool. -/
structure ToolCall where
  id : Option String := none
  name : String
  arguments : Args := []

instance : Inhabited ToolCall := ⟨{ name := "" }⟩

/-- `Content` (content.py): tagged-variant content parts.  Every variant
carries the envelope fields `tag` and `lifespan`. -/
inductive Content
  | text (tag : Option String) (lifespan : Option Int) (s : String)
  | image (tag : Option String) (lifespan : Option Int) (base64 : String)
  | toolResult (r : ToolResult)
  | toolCall (tag : Option String) (lifespan : Option Int) (c : ToolCall)

/-- The `lifespan` envelope field of a content part. -/
def Content.lifespanOf : Content → Option Int
  | .text _ l _ => l
  | .image _ l _ => l
  | .toolResult r => r.lifespan
  | .toolCall _ l _ => l

/-- `ModelMessage` (message.py): model reply with optional tool calls. -/
structure ModelMessage where
  content : Option (List Content) := none
  tool_calls : Option (List ToolCall) := none

/-- `UserMessage` (message.py): user-role message. -/
structure UserMessage where
  content : Option (List Content) := none

/-- A role-tagged message, as stored in `Run.messages` and fed to the LLM. -/
inductive Message
  | system (content : Option (List Content))
  | user (m : UserMessage)
  | model (m : ModelMessage)

/-- The content list of a user message (`None` reads as empty). -/
def UserMessage.contentList (m : UserMessage) : List Content :=
  m.content.getD []

/-- `TaskResult` (run.py): the mutable per-run result slot written by the
control tools. -/
structure TaskResult where
  status : Option TaskStatus := none
  output : Option JsonVal := none
  feedback : Option String := none

instance : Inhabited TaskResult := ⟨{}⟩

/-- `Run` (run.py): the record of one task execution. -/
structure Run where
  result : TaskResult
  action_log : String
  messages : List Message := []
  task_description : String := ""
  steps_used : Nat := 0
  max_steps : Nat := 0

/-- `MemoryConfig` (memory.py): `recent_window` is validated `ge=1` by
pydantic, embedded as a bundled proof. -/
structure MemoryConfig where
  recent_window : Nat
  recent_window_ge_one : 1 ≤ recent_window

-- ======================================================================
-- Tools (src/dodo/tools/base.py, src/dodo/tools/control.py)
-- ======================================================================

/-- A user-authored tool (tools/base.py): `Params` validation and `execute`
merged into one fallible function; user tools hold no reference to the run's
`TaskResult`. -/
structure Tool where
  name : String
  exec : Args → Except String ToolResult

/-- An optional output schema for `complete_work`, abstracted as a predicate
on the submitted output value. -/
abbrev OutputSchema := JsonVal → Bool

/-- A registry entry: either a user tool, or one of the two control tools,
which hold a reference to the run's shared `TaskResult` (embedded as state
threading through their execution). -/
inductive RegEntry
  | user (t : Tool)
  | completeWork (schema : Option OutputSchema)
  | abortWork

/-- The declared name of a registry entry. -/
def RegEntry.name : RegEntry → String
  | .user t => t.name
  | .completeWork _ => "complete_work"
  | .abortWork => "abort_work"

/-- Whether an entry is one of the two control tools. -/
def RegEntry.isControl : RegEntry → Bool
  | .user _ => false
  | .completeWork _ => true
  | .abortWork => true

mutual

/-- Simple rendering of a JSON value (stands in for `json.dumps(...)`; no
claim depends on its exact text). -/
def renderJson : JsonVal → String
  | .str s => s
  | .num n => toString n
  | .bool b => toString b
  | .null => "null"
  | .arr xs => "[" ++ String.intercalate ", " (renderJsonList xs) ++ "]"
  | .obj fs => String.intercalate ", " (renderJsonFields fs)

/-- Render each element of a JSON array. -/
def renderJsonList : List JsonVal → List String
  | [] => []
  | x :: xs => renderJson x :: renderJsonList xs

/-- Render each field of a JSON object. -/
def renderJsonFields : List (String × JsonVal) → List String
  | [] => []
  | (k, v) :: fs => (k ++ ": " ++ renderJson v) :: renderJsonFields fs

end

/-- `CompleteWorkTool.execute` together with its `Params` validation
(control.py): requires a string `feedback`; an `output` value, when an
output schema was supplied, must satisfy it.  Sets the shared result slot to
`completed` and returns a terminal success result. -/
def completeWorkExec (schema : Option OutputSchema) (args : Args)
    (st : TaskResult) : Except String (ToolResult × TaskResult) :=
  match lookupArg args "feedback" with
  | some (JsonVal.str fb) =>
    let rawOutput := lookupArg args "output"
    let output : Option JsonVal :=
      match rawOutput with
      | some JsonVal.null => none
      | some v => some v
      | none => none
    match schema, output with
    | some p, some v =>
      if p v then
        Except.ok (mkResult fb output st)
      else
        Except.error "validation error for CompleteWorkParams: output"
    | _, _ => Except.ok (mkResult fb output st)
  | _ => Except.error "validation error for CompleteWorkParams: feedback"
where
  /-- The successful path: mutate the result slot, build the description. -/
  mkResult (fb : String) (output : Option JsonVal) (st : TaskResult) :
      ToolResult × TaskResult :=
    let st' : TaskResult :=
      { st with
        status := some TaskStatus.completed
        feedback := some fb
        output := match output with | some v => some v | none => st.output }
    let desc :=
      "Completed: " ++ fb ++
        (match output with
         | some v => "\nOutput data:\n" ++ renderJson v
         | none => "")
    ({ name := "complete_work"
       status := ToolResultStatus.success
       description := desc
       terminal := true }, st')

/-- `AbortWorkTool.execute` together with its `Params` validation
(control.py): requires a string `reason`; sets the shared result slot to
`aborted` and returns a terminal success result. -/
def abortWorkExec (args : Args) (st : TaskResult) :
    Except String (ToolResult × TaskResult) :=
  match lookupArg args "reason" with
  | some (JsonVal.str reason) =>
    Except.ok
      ({ name := "abort_work"
         status := ToolResultStatus.success
         description := "Aborted: " ++ reason
         terminal := true },
       { st with status := some TaskStatus.aborted, feedback := some reason })
  | _ => Except.error "validation error for AbortWorkParams: reason"

/-- Execute one registry entry on given arguments and result state.  Only the
control tools can touch the `TaskResult`; validation and execution failures
surface as `Except.error` with the exception message. -/
def execEntry (e : RegEntry) (args : Args) (st : TaskResult) :
    Except String (ToolResult × TaskResult) :=
  match e with
  | .user t => (t.exec args).map (fun r => (r, st))
  | .completeWork schema => completeWorkExec schema args st
  | .abortWork => abortWorkExec args st

-- ======================================================================
-- Tool registry (src/dodo/tool_registry.py)
-- ======================================================================

/-- The registry's backing store: a Python dict in insertion order. -/
abbrev ToolRegistry := List RegEntry

/-- `ToolRegistry.register`: replaces an existing tool of the same name in
place (dict semantics: a replaced key keeps its insertion position),
otherwise appends. -/
def registryRegister (reg : ToolRegistry) (e : RegEntry) : ToolRegistry :=
  if (List.any reg (fun x => x.name = e.name)) then
    List.map (fun x => if x.name = e.name then e else x) reg
  else
    reg ++ [e]

/-- `ToolRegistry.get` lookup (names are unique in a dict, so first match). -/
def registryGet (reg : ToolRegistry) (name : String) : Option RegEntry :=
  List.find? (fun x => x.name = name) reg

/-- The skipped result synthesized for a not-executed call in a stopped
batch. -/
def mkSkipped (c : ToolCall) : ToolResult :=
  { tool_call_id := c.id
    name := c.name
    status := ToolResultStatus.skipped
    description := c.name ++ " (SKIPPED)" }

/-- The error result for a call whose name is not registered. -/
def mkNotFound (c : ToolCall) : ToolResult :=
  { tool_call_id := c.id
    name := c.name
    status := ToolResultStatus.error
    error := some ("Tool " ++ apos ++ c.name ++ apos ++ " not found in registry")
    description := c.name ++ " (ERROR: Tool not found)" }

/-- The error result for a call whose validation or execution raised. -/
def mkExecError (c : ToolCall) (msg : String) : ToolResult :=
  { tool_call_id := c.id
    name := c.name
    status := ToolResultStatus.error
    error := some msg
    description := c.name ++ " (ERROR: " ++ msg ++ ")" }

/-- `ToolRegistry.execute_tool_calls` (tool_registry.py): execute calls in
order, stopping on a missing tool, a raised exception, an error result or a
terminal result; remaining calls yield skipped results. -/
def execToolCalls (reg : ToolRegistry) :
    List ToolCall → TaskResult → List ToolResult × TaskResult
  | [], st => ([], st)
  | c :: rest, st =>
    match registryGet reg c.name with
    | none => (mkNotFound c :: rest.map mkSkipped, st)
    | some e =>
      match execEntry e c.arguments st with
      | Except.error msg => (mkExecError c msg :: rest.map mkSkipped, st)
      | Except.ok (res, st') =>
        let res := { res with tool_call_id := c.id }
        if res.terminal ∨ res.status = ToolResultStatus.error then
          (res :: rest.map mkSkipped, st')
        else
          let tail := execToolCalls reg rest st'
          (res :: tail.1, tail.2)

-- ======================================================================
-- Task runner (src/dodo/runner/runner.py)
-- ======================================================================

/-- A `(model message, user message)` iteration pair (`MessagePair`). -/
abbrev Pair := ModelMessage × UserMessage

/-- `TaskRunner._extract_reasoning`: the first content item of the model
message with a truthy `text` attribute. -/
def extractReasoning (m : ModelMessage) : Option String :=
  match m.content with
  | none => none
  | some cs =>
    cs.findSome? fun c =>
      match c with
      | Content.text _ _ s => if s ≠ "" then some s else none
      | _ => none

/-- The bullet lines contributed by one piece of model reasoning: first line
as a top-level bullet, subsequent lines indented. -/
def reasoningBullets (r : String) : List String :=
  let r := r.trim
  match r.splitOn "\n" with
  | [] => []
  | first :: rest => ("- " ++ first) :: rest.map (fun line => "  " ++ line)

/-- The indented bullet for one tool result inside the action summary. -/
def resultBullet (r : ToolResult) : String :=
  if r.status = ToolResultStatus.error then
    "  - " ++ r.description ++ " [FAILED: " ++ pyStr r.error ++ "]"
  else
    "  - " ++ r.description

/-- The summary lines of one iteration pair. -/
def pairLines (p : Pair) : List String :=
  (match extractReasoning p.1 with
   | some r => reasoningBullets r
   | none => []) ++
  p.2.contentList.filterMap fun c =>
    match c with
    | Content.toolResult r => some (resultBullet r)
    | _ => none

/-- `TaskRunner._build_summary`: the textual compaction of a pair list. -/
def buildSummary (pairs : List Pair) : String :=
  match pairs with
  | [] => ""
  | _ => String.intercalate "\n" (pairs.flatMap pairLines)

/-- Whether a content item survives lifespan filtering at the given distance
from the newest pair. -/
def keepAt (distance : Int) (c : Content) : Bool :=
  match c.lifespanOf with
  | none => true
  | some l => distance < l

/-- `TaskRunner._filter_content_by_lifespan`: drop content whose lifespan is
exceeded; a message with falsy content (None or empty) is returned as is, and
a fully filtered content list is stored as `None`. -/
def filterContentByLifespan (msg : UserMessage) (distance : Int) : UserMessage :=
  match msg.content with
  | none => msg
  | some cs =>
    match cs with
    | [] => msg
    | _ =>
      let filtered := cs.filter (keepAt distance)
      { content := match filtered with | [] => none | fs => some fs }

/-- `TaskRunner._prepare_messages`: session bootstrap, then (when more pairs
exist than the recent window and their compaction is non-empty) one summary
user message, then the recent pairs with lifespan filtering applied to their
user messages. -/
def prepareMessages (mem : MemoryConfig) (sessionStart : List Message)
    (pairs : List Pair) : List Message :=
  let rw := mem.recent_window
  let summaryMessages : List Message :=
    if pairs.length > rw then
      let oldPairs := pairs.take (pairs.length - rw)
      let summary := buildSummary oldPairs
      if summary ≠ "" then
        [Message.user ⟨some [Content.text none none
            ("Previous actions in this session:\n" ++ summary)]⟩]
      else []
    else []
  let recentPairs :=
    if pairs.length > rw then pairs.drop (pairs.length - rw) else pairs
  let numRecent := recentPairs.length
  let recentMessages := recentPairs.enum.flatMap fun ip =>
    [Message.model ip.2.1,
     Message.user (filterContentByLifespan ip.2.2
        ((numRecent : Int) - 1 - (ip.1 : Int)))]
  sessionStart ++ summaryMessages ++ recentMessages

/-- The `.value` string of a task status. -/
def TaskStatus.value : TaskStatus → String
  | .completed => "completed"
  | .aborted => "aborted"

/-- Python `str.capitalize`: first character upper-cased, rest lower-cased. -/
def pyCapitalize (s : String) : String :=
  match s.data with
  | [] => ""
  | c :: cs => String.mk (c.toUpper :: cs.map Char.toLower)

/-- `TaskRunner._format_previous_runs`: the textual block describing prior
runs (a run handed here always has its status set; `none` renders empty). -/
def formatPreviousRuns (runs : List Run) : String :=
  let blocks := runs.enum.flatMap fun ir =>
    ["### Task " ++ toString (ir.1 + 1),
     "Task: " ++ ir.2.task_description,
     "Status: " ++ pyCapitalize
        (match ir.2.result.status with
         | some st => st.value
         | none => "")] ++
    (match ir.2.result.feedback with
     | some f => if f ≠ "" then ["Feedback: " ++ f] else []
     | none => []) ++ [""]
  String.intercalate "\n" (["## Previous tasks:", ""] ++ blocks)

/-- `TaskRunner._build_session_start_messages`: system prompt plus the
initial user message (previous-runs block when non-empty, the current task,
then the initial observation). -/
def buildSessionStartMessages (systemPrompt : String) (task : String)
    (previousRuns : List Run) (observation : List Content) : List Message :=
  let userContent :=
    (match previousRuns with
     | [] => []
     | _ => [Content.text none none (formatPreviousRuns previousRuns)]) ++
    [Content.text none none ("## Current task:\n" ++ task)] ++
    observation
  [Message.system (some [Content.text none none systemPrompt]),
   Message.user ⟨some userContent⟩]

/-- `TaskRunner._setup_tools`: register the user tools in declared order,
then the two control tools. -/
def setupTools (tools : List Tool) (outputSchema : Option OutputSchema) :
    ToolRegistry :=
  let reg := tools.foldl (fun r t => registryRegister r (RegEntry.user t)) []
  let reg := registryRegister reg (RegEntry.completeWork outputSchema)
  registryRegister reg RegEntry.abortWork

/-- The body of `TaskRunner.run`'s iteration loop.  `remaining` counts the
iterations left before the bound (`iteration + remaining = max_iterations`
at the top-level call); the exhausted case is the loop's `else` branch.  The
LLM adapter and observe callback are abstract: the adapter is a function of
the assembled messages and the registered tools, and `observe i` is the
`i`-th sequential sample (sample 0 went into the bootstrap). -/
def runLoop (llm : List Message → ToolRegistry → ModelMessage)
    (observe : Nat → List Content) (mem : MemoryConfig) (reg : ToolRegistry)
    (sessionStart : List Message) (maxIter : Nat) :
    Nat → Nat → TaskResult → List Pair → TaskResult × List Pair × Nat
  | _, 0, st, pairs =>
    ({ st with
        status := some TaskStatus.aborted
        feedback := some "Reached maximum iterations" }, pairs, maxIter)
  | iteration, remaining + 1, st, pairs =>
    let allMessages := prepareMessages mem sessionStart pairs
    let modelMsg := llm allMessages reg
    let calls := modelMsg.tool_calls.getD []
    let dispatched := execToolCalls reg calls st
    let observation := observe (iteration + 1)
    let responseMsg : UserMessage :=
      ⟨some (dispatched.1.map Content.toolResult ++ observation)⟩
    let pairs' := pairs ++ [(modelMsg, responseMsg)]
    if (dispatched.2).status.isSome then
      (dispatched.2, pairs', iteration + 1)
    else
      runLoop llm observe mem reg sessionStart maxIter
        (iteration + 1) remaining dispatched.2 pairs'

namespace TaskRunner

/-- `TaskRunner.run`: set up the registry and bootstrap, run the bounded
iteration loop, and assemble the `Run`. -/
def run (llm : List Message → ToolRegistry → ModelMessage)
    (tools : List Tool) (observe : Nat → List Content)
    (systemPrompt : String) (mem : MemoryConfig)
    (task : String) (maxIterations : Nat) (previousRuns : List Run)
    (outputSchema : Option OutputSchema) : Run :=
  let reg := setupTools tools outputSchema
  let sessionStart :=
    buildSessionStartMessages systemPrompt task previousRuns (observe 0)
  let fin := runLoop llm observe mem reg sessionStart maxIterations
    0 maxIterations {} []
  { result := fin.1
    action_log := buildSummary fin.2.1
    messages := fin.2.1.flatMap (fun p => [Message.model p.1, Message.user p.2])
    task_description := task
    steps_used := fin.2.2
    max_steps := maxIterations }

end TaskRunner

-- ======================================================================
-- Replay engine (src/dodo/runner/redo_runner.py)
-- ======================================================================

/-- How a replay fails: `ValueError` on a missing tool, a propagated
validation/execution exception, or `RuntimeError` on an error result. -/
inductive ReplayError
  | valueError (msg : String)
  | execError (msg : String)
  | runtimeError (msg : String)
deriving DecidableEq, Repr

/-- `RedoRunner.__init__`'s tool map `{tool.name: tool for tool in tools}`:
on duplicate names the later tool wins. -/
def redoLookup (tools : List Tool) (name : String) : Option Tool :=
  tools.foldl (fun acc t => if t.name = name then some t else acc) none

/-- The tool calls of one message when it is a model message. -/
def Message.modelToolCalls : Message → List ToolCall
  | .model m => m.tool_calls.getD []
  | _ => []

/-- `RedoRunner._extract_tool_calls`: concatenate the tool calls of all
model messages in message order. -/
def extractToolCalls (run : Run) : List ToolCall :=
  run.messages.flatMap Message.modelToolCalls

/-- `RedoRunner._execute_tool_call`: resolve the tool in the replay map,
validate and execute, and fail loudly on a missing tool, a raised exception,
or an error result. -/
def executeToolCallRedo (tools : List Tool) (call : ToolCall) :
    Except ReplayError ToolResult :=
  match redoLookup tools call.name with
  | none =>
    Except.error (ReplayError.valueError
      ("Tool " ++ apos ++ call.name ++ apos ++ " not found in tool registry"))
  | some tool =>
    match tool.exec call.arguments with
    | Except.error msg => Except.error (ReplayError.execError msg)
    | Except.ok res =>
      if res.status = ToolResultStatus.error then
        Except.error (ReplayError.runtimeError
          ("Tool " ++ apos ++ call.name ++ apos ++ " failed: " ++
            pyStr res.error))
      else
        Except.ok res

/-- Replay a call list in order, stopping at the first failure. -/
def replayCalls (tools : List Tool) : List ToolCall → Except ReplayError Unit
  | [] => Except.ok ()
  | c :: rest =>
    match executeToolCallRedo tools c with
    | Except.error e => Except.error e
    | Except.ok _ => replayCalls tools rest

/-- `RedoRunner.replay`: extract the run's tool calls and execute them in
sequence (the early return on an empty extraction is behaviour-preserving). -/
def replay (tools : List Tool) (run : Run) : Except ReplayError Unit :=
  match extractToolCalls run with
  | [] => Except.ok ()
  | calls => replayCalls tools calls

-- ======================================================================
-- Agent facade (src/dodo/agent.py)
-- ======================================================================

/-- The `Agent` facade's state: the user tools and, when stateful, the
retained prior runs. -/
structure Agent where
  tools : List Tool
  system_prompt : String
  stateful : Bool := true
  memory : MemoryConfig
  previous_runs : List Run := []

/-- The outcome of `Agent.do`: either the run, or a raised
`TaskAbortedError` carrying its message. -/
inductive DoOutcome
  | ok (run : Run)
  | taskAborted (feedback : String)

namespace Agent

/-- `Agent._run_task`: build a fresh `TaskRunner`, run it with the retained
runs (when stateful), append the resulting run to `previous_runs` (when
stateful), and raise `TaskAbortedError(run.feedback or "Task aborted")` when
the run aborted. -/
def runTask (a : Agent) (llm : List Message → ToolRegistry → ModelMessage)
    (observe : Nat → List Content) (task : String) (maxIterations : Nat)
    (outputSchema : Option OutputSchema) : Agent × DoOutcome :=
  let run := TaskRunner.run llm a.tools observe a.system_prompt a.memory task
    maxIterations (if a.stateful then a.previous_runs else []) outputSchema
  let a' :=
    if a.stateful then { a with previous_runs := a.previous_runs ++ [run] }
    else a
  if run.result.status = some TaskStatus.aborted then
    (a', DoOutcome.taskAborted
      (match run.result.feedback with
       | some f => if f = "" then "Task aborted" else f
       | none => "Task aborted"))
  else
    (a', DoOutcome.ok run)

/-- `Agent.do` (named `doTask` here because `do` is reserved): delegates to
`_run_task`. -/
def doTask (a : Agent) (llm : List Message → ToolRegistry → ModelMessage)
    (observe : Nat → List Content) (task : String) (maxIterations : Nat)
    (outputSchema : Option OutputSchema) : Agent × DoOutcome :=
  runTask a llm observe task maxIterations outputSchema

/-- `Agent.redo`: build a `RedoRunner` over the user-supplied tools only and
replay the run. -/
def redo (a : Agent) (run : Run) : Except ReplayError Unit :=
  replay a.tools run

/-- `Agent.reset`: clear the retained runs. -/
def reset (a : Agent) : Agent :=
  { a with previous_runs := [] }

end Agent

-- ======================================================================
-- Auxiliary definitions for the verification
-- ======================================================================

/-- The default `MemoryConfig()` (recent_window = 5). -/
def defaultMemoryConfig : MemoryConfig := ⟨5, by norm_num⟩

/-- A `MemoryConfig(recent_window=1)`. -/
def oneWindowMemory : MemoryConfig := ⟨1, le_refl 1⟩

/-- A user tool that always succeeds with a `terminal=true` result (the
non-control terminal case the spec calls out). -/
def egTerminalTool : Tool :=
  { name := "t"
    exec := fun _ => Except.ok
      { name := "t"
        status := ToolResultStatus.success
        description := "t done"
        terminal := true } }

/-- A scripted adapter: on the first iteration (bootstrap only, two
messages) call the terminal user tool `t`; afterwards call nothing. -/
def llmTerminalOnce : List Message → ToolRegistry → ModelMessage :=
  fun msgs _ =>
    if msgs.length ≤ 2 then { tool_calls := some [{ name := "t" }] } else {}

/-- A concrete two-iteration run in which iteration 1 produces a terminal
non-control result and iteration 2 runs anyway. -/
def exC4Run : Run :=
  TaskRunner.run llmTerminalOnce [egTerminalTool] (fun _ => []) "sys"
    defaultMemoryConfig "task" 2 [] none

/-- Whether a message is a user message containing a terminal tool result. -/
def messageHasTerminalResult (m : Message) : Bool :=
  match m with
  | .user um =>
    um.contentList.any fun c =>
      match c with
      | Content.toolResult r => r.terminal
      | _ => false
  | _ => false

/-- A pair whose two messages carry no content and no tool calls. -/
def emptyPair : Pair := ({}, {})

/-- A scripted adapter that immediately calls `abort_work` with an empty
reason string. -/
def llmAbortEmpty : List Message → ToolRegistry → ModelMessage :=
  fun _ _ =>
    { tool_calls := some
        [{ name := "abort_work"
           arguments := [("reason", JsonVal.str "")] }] }

/-- A scripted adapter that immediately calls `complete_work`. -/
def llmCompleteDone : List Message → ToolRegistry → ModelMessage :=
  fun _ _ =>
    { tool_calls := some
        [{ name := "complete_work"
           arguments := [("feedback", JsonVal.str "done")] }] }

/-- A fresh stateful agent with no user tools. -/
def egAgent : Agent :=
  { tools := []
    system_prompt := "sys"
    memory := defaultMemoryConfig }

/-- "Every extracted call executes without error": each call resolves in the
replay tool map, its validation and execution raise nothing, and its result
status is not `error`. -/
inductive CallsOk (tools : List Tool) : List ToolCall → Prop
  | nil : CallsOk tools []
  | cons (c : ToolCall) (rest : List ToolCall) (t : Tool) (r : ToolResult) :
      redoLookup tools c.name = some t →
      t.exec c.arguments = Except.ok r →
      r.status ≠ ToolResultStatus.error →
      CallsOk tools rest →
      CallsOk tools (c :: rest)

/-- Modelled from the spec §4.3, with the one amendment the code forces:
the synthesized summary user message is inserted only when the compaction
of the evicted pairs is non-empty.  Written from the spec words: when more
pairs exist than the window, evict `old = pairs[: len(pairs) − recent_window]`
into one user message `"Previous actions in this session:\n<compact(old)>"`
placed right after the bootstrap, then append the last `recent_window` pairs
with lifespan filtering on their user messages; otherwise all pairs follow
the bootstrap (filtered), with no summary. -/
def assembleMessagesSpec (mem : MemoryConfig) (bootstrap : List Message)
    (pairs : List Pair) : List Message :=
  let filteredPairMessages : List Pair → List Message := fun recent =>
    recent.enum.flatMap fun ip =>
      [Message.model ip.2.1,
       Message.user (filterContentByLifespan ip.2.2
          ((recent.length : Int) - 1 - (ip.1 : Int)))]
  if pairs.length > mem.recent_window then
    let old := pairs.take (pairs.length - mem.recent_window)
    let recent := pairs.drop (pairs.length - mem.recent_window)
    let compacted := buildSummary old
    bootstrap ++
      (if compacted = "" then []
       else [Message.user ⟨some [Content.text none none
          ("Previous actions in this session:\n" ++ compacted)]⟩]) ++
      filteredPairMessages recent
  else
    bootstrap ++ filteredPairMessages pairs

-- ======================================================================
-- Lemmas: batch dispatch (tool_registry.py)
-- ======================================================================

lemma execToolCalls_nil (reg : ToolRegistry) (st : TaskResult) :
    execToolCalls reg [] st = ([], st) := rfl

lemma execToolCalls_cons_notFound (reg : ToolRegistry) (c : ToolCall)
    (rest : List ToolCall) (st : TaskResult)
    (h : registryGet reg c.name = none) :
    execToolCalls reg (c :: rest) st =
      (mkNotFound c :: rest.map mkSkipped, st) := by
  simp [execToolCalls, h]

lemma execToolCalls_cons_execError (reg : ToolRegistry) (c : ToolCall)
    (rest : List ToolCall) (st : TaskResult) (e : RegEntry) (msg : String)
    (hg : registryGet reg c.name = some e)
    (he : execEntry e c.arguments st = Except.error msg) :
    execToolCalls reg (c :: rest) st =
      (mkExecError c msg :: rest.map mkSkipped, st) := by
  simp [execToolCalls, hg, he]

lemma execToolCalls_cons_stop (reg : ToolRegistry) (c : ToolCall)
    (rest : List ToolCall) (st : TaskResult) (e : RegEntry)
    (res : ToolResult) (st' : TaskResult)
    (hg : registryGet reg c.name = some e)
    (he : execEntry e c.arguments st = Except.ok (res, st'))
    (hstop : res.terminal = true ∨ res.status = ToolResultStatus.error) :
    execToolCalls reg (c :: rest) st =
      ({ res with tool_call_id := c.id } :: rest.map mkSkipped, st') := by
  simp only [execToolCalls, hg, he]
  rw [if_pos]
  simpa using hstop

lemma execToolCalls_cons_go (reg : ToolRegistry) (c : ToolCall)
    (rest : List ToolCall) (st : TaskResult) (e : RegEntry)
    (res : ToolResult) (st' : TaskResult)
    (hg : registryGet reg c.name = some e)
    (he : execEntry e c.arguments st = Except.ok (res, st'))
    (hgo : ¬(res.terminal = true ∨ res.status = ToolResultStatus.error)) :
    execToolCalls reg (c :: rest) st =
      ({ res with tool_call_id := c.id } :: (execToolCalls reg rest st').1,
       (execToolCalls reg rest st').2) := by
  simp only [execToolCalls, hg, he]
  rw [if_neg]
  simpa using hgo

lemma execToolCalls_length (reg : ToolRegistry) :
    ∀ (calls : List ToolCall) (st : TaskResult),
      (execToolCalls reg calls st).1.length = calls.length := by
  intro calls
  induction calls with
  | nil => intro st; rfl
  | cons c rest ih =>
    intro st
    cases hg : registryGet reg c.name with
    | none => simp [execToolCalls_cons_notFound reg c rest st hg]
    | some e =>
      cases he : execEntry e c.arguments st with
      | error msg =>
        simp [execToolCalls_cons_execError reg c rest st e msg hg he]
      | ok p =>
        obtain ⟨res, st'⟩ := p
        by_cases hstop :
            res.terminal = true ∨ res.status = ToolResultStatus.error
        · simp [execToolCalls_cons_stop reg c rest st e res st' hg he hstop]
        · simp [execToolCalls_cons_go reg c rest st e res st' hg he hstop,
            ih st']

lemma execToolCalls_ids (reg : ToolRegistry) :
    ∀ (calls : List ToolCall) (st : TaskResult) (k : Nat),
      ((execToolCalls reg calls st).1[k]?).map ToolResult.tool_call_id =
        (calls[k]?).map ToolCall.id := by
  intro calls
  induction calls with
  | nil => intro st k; rfl
  | cons c rest ih =>
    intro st k
    cases hg : registryGet reg c.name with
    | none =>
      rw [execToolCalls_cons_notFound reg c rest st hg]
      cases k with
      | zero => simp [mkNotFound]
      | succ k =>
        simp only [List.getElem?_cons_succ, List.getElem?_map]
        cases hk : rest[k]? <;> simp [hk, mkSkipped]
    | some e =>
      cases he : execEntry e c.arguments st with
      | error msg =>
        rw [execToolCalls_cons_execError reg c rest st e msg hg he]
        cases k with
        | zero => simp [mkExecError]
        | succ k =>
          simp only [List.getElem?_cons_succ, List.getElem?_map]
          cases hk : rest[k]? <;> simp [hk, mkSkipped]
      | ok p =>
        obtain ⟨res, st'⟩ := p
        by_cases hstop :
            res.terminal = true ∨ res.status = ToolResultStatus.error
        · rw [execToolCalls_cons_stop reg c rest st e res st' hg he hstop]
          cases k with
          | zero => simp
          | succ k =>
            simp only [List.getElem?_cons_succ, List.getElem?_map]
            cases hk : rest[k]? <;> simp [hk, mkSkipped]
        · rw [execToolCalls_cons_go reg c rest st e res st' hg he hstop]
          cases k with
          | zero => simp
          | succ k =>
            simp only [List.getElem?_cons_succ]
            exact ih st' k

lemma execToolCalls_skipped_after_stop (reg : ToolRegistry) :
    ∀ (calls : List ToolCall) (st : TaskResult) (i j : Nat)
      (ri rj : ToolResult) (call : ToolCall),
      i < j →
      (execToolCalls reg calls st).1[i]? = some ri →
      (execToolCalls reg calls st).1[j]? = some rj →
      calls[j]? = some call →
      (ri.terminal = true ∨ ri.status = ToolResultStatus.error) →
      rj = mkSkipped call := by
  intro calls
  induction calls with
  | nil =>
    intro st i j ri rj call _ hri
    rw [execToolCalls_nil] at hri
    simp at hri
  | cons c rest ih =>
    intro st i j ri rj call hij hri hrj hcall hbad
    cases hg : registryGet reg c.name with
    | none =>
      rw [execToolCalls_cons_notFound reg c rest st hg] at hri hrj
      match j, hij, hrj, hcall with
      | j + 1, _, hrj, hcall =>
        simp only [List.getElem?_cons_succ, List.getElem?_map] at hrj hcall
        rw [hcall] at hrj
        simpa using hrj.symm
    | some e =>
      cases he : execEntry e c.arguments st with
      | error msg =>
        rw [execToolCalls_cons_execError reg c rest st e msg hg he]
          at hri hrj
        match j, hij, hrj, hcall with
        | j + 1, _, hrj, hcall =>
          simp only [List.getElem?_cons_succ, List.getElem?_map] at hrj hcall
          rw [hcall] at hrj
          simpa using hrj.symm
      | ok p =>
        obtain ⟨res, st'⟩ := p
        by_cases hstop :
            res.terminal = true ∨ res.status = ToolResultStatus.error
        · rw [execToolCalls_cons_stop reg c rest st e res st' hg he hstop]
            at hri hrj
          match j, hij, hrj, hcall with
          | j + 1, _, hrj, hcall =>
            simp only [List.getElem?_cons_succ, List.getElem?_map]
              at hrj hcall
            rw [hcall] at hrj
            simpa using hrj.symm
        · rw [execToolCalls_cons_go reg c rest st e res st' hg he hstop]
            at hri hrj
          match i, j, hij, hri, hrj, hcall with
          | 0, j + 1, _, hri, hrj, hcall =>
            have hres : ri = { res with tool_call_id := c.id } := by
              simpa using hri.symm
            refine absurd ?_ hstop
            rw [hres] at hbad
            simpa using hbad
          | i + 1, j + 1, hij, hri, hrj, hcall =>
            simp only [List.getElem?_cons_succ] at hri hrj hcall
            exact ih st' i j ri rj call (Nat.lt_of_succ_lt_succ hij)
              hri hrj hcall hbad

-- ======================================================================
-- Claim C2
-- ======================================================================

/-- **C2.** For every list of tool calls given to
`ToolRegistry.execute_tool_calls`, the returned result list has the same
length and order as the input list (order witnessed positionally: the k-th
result carries the k-th call's `tool_call_id`), and after the first result
that is terminal or has status error, every subsequent result in that batch
has status skipped with description `"<name> (SKIPPED)"`. -/
theorem claim_C2_batch_length_order_skip (reg : ToolRegistry)
    (calls : List ToolCall) (st : TaskResult) :
    (execToolCalls reg calls st).1.length = calls.length ∧
    (∀ k : Nat,
      ((execToolCalls reg calls st).1[k]?).map ToolResult.tool_call_id =
        (calls[k]?).map ToolCall.id) ∧
    (∀ (i j : Nat) (ri rj : ToolResult) (call : ToolCall), i < j →
      (execToolCalls reg calls st).1[i]? = some ri →
      (execToolCalls reg calls st).1[j]? = some rj →
      calls[j]? = some call →
      (ri.terminal = true ∨ ri.status = ToolResultStatus.error) →
      rj.status = ToolResultStatus.skipped ∧
        rj.description = call.name ++ " (SKIPPED)") := by
  refine ⟨execToolCalls_length reg calls st,
    fun k => execToolCalls_ids reg calls st k,
    fun i j ri rj call hij hri hrj hcall hbad => ?_⟩
  have h := execToolCalls_skipped_after_stop reg calls st i j ri rj call
    hij hri hrj hcall hbad
  rw [h]
  exact ⟨rfl, rfl⟩

/-- Witness for C2 at a concrete batch: an unknown tool `a` stops the batch
and the following call `b` is skipped. -/
theorem claim_C2_witness :
    (execToolCalls [] [{ name := "a" }, { name := "b" }] {}).1.length = 2 ∧
    (mkSkipped { name := "b" }).status = ToolResultStatus.skipped ∧
    (mkSkipped { name := "b" }).description = "b" ++ " (SKIPPED)" := by
  have h := claim_C2_batch_length_order_skip []
    [{ name := "a" }, { name := "b" }] {}
  refine ⟨h.1, ?_⟩
  have h3 := h.2.2 0 1 (mkNotFound { name := "a" })
    (mkSkipped { name := "b" }) { name := "b" }
    (by norm_num) rfl rfl rfl (Or.inr rfl)
  exact h3

-- ======================================================================
-- Claim C5
-- ======================================================================

/-- **C5.** For each dispatched tool call: if the name is not registered,
the produced result has status error, error exactly
`"Tool '<name>' not found in registry"`, and description
`"<name> (ERROR: Tool not found)"`; if argument validation fails or the
tool's execute raises (both surface as `Except.error msg` with
`msg = str(e)`), the produced result has status error with the exception
message and description `"<name> (ERROR: <message>)"`; in every such case
the batch stops at that call (all remaining calls are skipped) and the
shared result state is unchanged. -/
theorem claim_C5_dispatch_errors (reg : ToolRegistry) (c : ToolCall)
    (rest : List ToolCall) (st : TaskResult) :
    (registryGet reg c.name = none →
      execToolCalls reg (c :: rest) st =
        ({ tool_call_id := c.id
           name := c.name
           status := ToolResultStatus.error
           error := some ("Tool " ++ apos ++ c.name ++ apos ++
             " not found in registry")
           description := c.name ++ " (ERROR: Tool not found)" }
          :: rest.map mkSkipped, st)) ∧
    (∀ (e : RegEntry) (msg : String), registryGet reg c.name = some e →
      execEntry e c.arguments st = Except.error msg →
      execToolCalls reg (c :: rest) st =
        ({ tool_call_id := c.id
           name := c.name
           status := ToolResultStatus.error
           error := some msg
           description := c.name ++ " (ERROR: " ++ msg ++ ")" }
          :: rest.map mkSkipped, st)) := by
  constructor
  · intro h
    exact execToolCalls_cons_notFound reg c rest st h
  · intro e msg hg he
    exact execToolCalls_cons_execError reg c rest st e msg hg he

/-- Witness for C5: a miss on an empty registry, and a validation failure of
`complete_work` (missing `feedback`) on a per-run registry. -/
theorem claim_C5_witness :
    (execToolCalls [] [{ name := "ghost" }] {} =
      ([{ tool_call_id := none
          name := "ghost"
          status := ToolResultStatus.error
          error := some ("Tool " ++ apos ++ "ghost" ++ apos ++
            " not found in registry")
          description := "ghost" ++ " (ERROR: Tool not found)" }], {})) ∧
    (execToolCalls (setupTools [] none) [{ name := "complete_work" }] {} =
      ([{ tool_call_id := none
          name := "complete_work"
          status := ToolResultStatus.error
          error := some "validation error for CompleteWorkParams: feedback"
          description := "complete_work" ++ " (ERROR: " ++
            "validation error for CompleteWorkParams: feedback" ++ ")" }],
        {})) := by
  constructor
  · exact (claim_C5_dispatch_errors [] { name := "ghost" } [] {}).1 rfl
  · exact (claim_C5_dispatch_errors (setupTools [] none)
      { name := "complete_work" } [] {}).2 (RegEntry.completeWork none)
      "validation error for CompleteWorkParams: feedback" rfl rfl

-- ======================================================================
-- Lemmas: the iteration loop (runner.py)
-- ======================================================================

lemma runLoop_zero (llm : List Message → ToolRegistry → ModelMessage)
    (observe : Nat → List Content) (mem : MemoryConfig) (reg : ToolRegistry)
    (ss : List Message) (maxIter iteration : Nat) (st : TaskResult)
    (pairs : List Pair) :
    runLoop llm observe mem reg ss maxIter iteration 0 st pairs =
      ({ st with
          status := some TaskStatus.aborted
          feedback := some "Reached maximum iterations" }, pairs, maxIter) :=
  rfl

lemma runLoop_step_stop (llm : List Message → ToolRegistry → ModelMessage)
    (observe : Nat → List Content) (mem : MemoryConfig) (reg : ToolRegistry)
    (ss : List Message) (maxIter iteration remaining : Nat) (st : TaskResult)
    (pairs : List Pair)
    (hsome : ((execToolCalls reg
        ((llm (prepareMessages mem ss pairs) reg).tool_calls.getD [])
        st).2).status.isSome = true) :
    runLoop llm observe mem reg ss maxIter iteration (remaining + 1) st
        pairs =
      ((execToolCalls reg
          ((llm (prepareMessages mem ss pairs) reg).tool_calls.getD [])
          st).2,
       pairs ++ [(llm (prepareMessages mem ss pairs) reg,
         ⟨some ((execToolCalls reg
             ((llm (prepareMessages mem ss pairs) reg).tool_calls.getD [])
             st).1.map Content.toolResult ++ observe (iteration + 1))⟩)],
       iteration + 1) := by
  simp only [runLoop]
  rw [if_pos hsome]

lemma runLoop_step_continue
    (llm : List Message → ToolRegistry → ModelMessage)
    (observe : Nat → List Content) (mem : MemoryConfig) (reg : ToolRegistry)
    (ss : List Message) (maxIter iteration remaining : Nat) (st : TaskResult)
    (pairs : List Pair)
    (hnone : ((execToolCalls reg
        ((llm (prepareMessages mem ss pairs) reg).tool_calls.getD [])
        st).2).status = none) :
    runLoop llm observe mem reg ss maxIter iteration (remaining + 1) st
        pairs =
      runLoop llm observe mem reg ss maxIter (iteration + 1) remaining
        (execToolCalls reg
          ((llm (prepareMessages mem ss pairs) reg).tool_calls.getD [])
          st).2
        (pairs ++ [(llm (prepareMessages mem ss pairs) reg,
          ⟨some ((execToolCalls reg
              ((llm (prepareMessages mem ss pairs) reg).tool_calls.getD [])
              st).1.map Content.toolResult ++ observe (iteration + 1))⟩)]) := by
  simp only [runLoop]
  rw [if_neg]
  simp [hnone]

lemma runLoop_max_out (llm : List Message → ToolRegistry → ModelMessage)
    (observe : Nat → List Content) (mem : MemoryConfig) (reg : ToolRegistry)
    (ss : List Message) (maxIter : Nat)
    (H : ∀ (msgs : List Message) (st0 : TaskResult), st0.status = none →
      ((execToolCalls reg ((llm msgs reg).tool_calls.getD []) st0).2).status
        = none) :
    ∀ (remaining iteration : Nat) (st : TaskResult) (pairs : List Pair),
      st.status = none →
      (runLoop llm observe mem reg ss maxIter iteration remaining st
          pairs).1.status = some TaskStatus.aborted ∧
      (runLoop llm observe mem reg ss maxIter iteration remaining st
          pairs).1.feedback = some "Reached maximum iterations" ∧
      (runLoop llm observe mem reg ss maxIter iteration remaining st
          pairs).2.2 = maxIter := by
  intro remaining
  induction remaining with
  | zero =>
    intro iteration st pairs _
    rw [runLoop_zero]
    exact ⟨rfl, rfl, rfl⟩
  | succ remaining ih =>
    intro iteration st pairs h
    have hst' := H (prepareMessages mem ss pairs) st h
    rw [runLoop_step_continue llm observe mem reg ss maxIter iteration
      remaining st pairs hst']
    exact ih (iteration + 1) _ _ hst'

-- ======================================================================
-- Claim C1
-- ======================================================================

/-- **C1.** For every execution of `TaskRunner.run` in which no dispatch
sets the shared result status (formalised: dispatching the adapter's tool
calls from any assembled message list never sets the status), the returned
`Run` has status `aborted`, feedback `"Reached maximum iterations"` and
`steps_used = max_iterations`.  The claim's `max_iterations = 1` instance
is the witness below. -/
theorem claim_C1_max_iterations_abort
    (llm : List Message → ToolRegistry → ModelMessage)
    (tools : List Tool) (observe : Nat → List Content)
    (systemPrompt : String) (mem : MemoryConfig) (task : String)
    (maxIterations : Nat) (previousRuns : List Run)
    (outputSchema : Option OutputSchema)
    (H : ∀ (msgs : List Message) (st : TaskResult), st.status = none →
      ((execToolCalls (setupTools tools outputSchema)
          ((llm msgs (setupTools tools outputSchema)).tool_calls.getD [])
          st).2).status = none) :
    (TaskRunner.run llm tools observe systemPrompt mem task maxIterations
        previousRuns outputSchema).result.status = some TaskStatus.aborted ∧
    (TaskRunner.run llm tools observe systemPrompt mem task maxIterations
        previousRuns outputSchema).result.feedback =
      some "Reached maximum iterations" ∧
    (TaskRunner.run llm tools observe systemPrompt mem task maxIterations
        previousRuns outputSchema).steps_used = maxIterations := by
  have h := runLoop_max_out llm observe mem (setupTools tools outputSchema)
    (buildSessionStartMessages systemPrompt task previousRuns (observe 0))
    maxIterations H maxIterations 0 {} [] rfl
  exact h

/-- Witness for C1: `max_iterations = 1` with an adapter that calls no tool
at all yields an aborted run with `steps_used = 1`. -/
theorem claim_C1_witness :
    (TaskRunner.run (fun _ _ => {}) [] (fun _ => []) "prompt"
        defaultMemoryConfig "task" 1 [] none).result.status =
      some TaskStatus.aborted ∧
    (TaskRunner.run (fun _ _ => {}) [] (fun _ => []) "prompt"
        defaultMemoryConfig "task" 1 [] none).result.feedback =
      some "Reached maximum iterations" ∧
    (TaskRunner.run (fun _ _ => {}) [] (fun _ => []) "prompt"
        defaultMemoryConfig "task" 1 [] none).steps_used = 1 := by
  exact claim_C1_max_iterations_abort (fun _ _ => {}) [] (fun _ => [])
    "prompt" defaultMemoryConfig "task" 1 [] none
    (fun msgs st h => by rw [Option.getD, execToolCalls_nil]; exact h)

-- ======================================================================
-- Claim C3
-- ======================================================================

lemma execEntry_user_state (t : Tool) (args : Args) (st : TaskResult)
    (res : ToolResult) (st' : TaskResult)
    (h : execEntry (RegEntry.user t) args st = Except.ok (res, st')) :
    st' = st := by
  simp only [execEntry] at h
  cases ht : t.exec args with
  | error m => rw [ht] at h; simp [Except.map] at h
  | ok r =>
    rw [ht] at h
    simp [Except.map] at h
    exact h.2.symm

lemma execToolCalls_userOnly_state (reg : ToolRegistry) :
    ∀ (calls : List ToolCall) (st : TaskResult),
      (∀ c ∈ calls, ∀ e, registryGet reg c.name = some e →
        e.isControl = false) →
      (execToolCalls reg calls st).2 = st := by
  intro calls
  induction calls with
  | nil => intro st _; rfl
  | cons c rest ih =>
    intro st hu
    cases hg : registryGet reg c.name with
    | none => rw [execToolCalls_cons_notFound reg c rest st hg]
    | some e =>
      cases he : execEntry e c.arguments st with
      | error msg => rw [execToolCalls_cons_execError reg c rest st e msg hg he]
      | ok p =>
        obtain ⟨res, st'⟩ := p
        have huser : e.isControl = false := hu c (by simp) e hg
        have hstate : st' = st := by
          cases e with
          | user t => exact execEntry_user_state t c.arguments st res st' he
          | completeWork schema => simp [RegEntry.isControl] at huser
          | abortWork => simp [RegEntry.isControl] at huser
        by_cases hstop :
            res.terminal = true ∨ res.status = ToolResultStatus.error
        · rw [execToolCalls_cons_stop reg c rest st e res st' hg he hstop]
          exact hstate
        · rw [execToolCalls_cons_go reg c rest st e res st' hg he hstop]
          rw [ih st' fun c hc => hu c (by simp [hc])]
          exact hstate

/-- **C3.** The iteration loop exits before the bound only when a control
tool has set the shared result status during dispatch: (i) a dispatch whose
calls resolve only to non-control tools (or to nothing) leaves the shared
`TaskResult` untouched — in particular a non-control tool returning
`terminal=true` stops its batch yet leaves the status unset; and (ii)
whenever the status is still unset after a dispatch, the loop does not end
but proceeds to the next iteration with the new pair appended. -/
theorem claim_C3_loop_exit_only_by_control :
    (∀ (reg : ToolRegistry) (calls : List ToolCall) (st : TaskResult),
      (∀ c ∈ calls, ∀ e, registryGet reg c.name = some e →
        e.isControl = false) →
      (execToolCalls reg calls st).2 = st) ∧
    (∀ (llm : List Message → ToolRegistry → ModelMessage)
      (observe : Nat → List Content) (mem : MemoryConfig)
      (reg : ToolRegistry) (ss : List Message)
      (maxIter iteration remaining : Nat) (st : TaskResult)
      (pairs : List Pair),
      ((execToolCalls reg
          ((llm (prepareMessages mem ss pairs) reg).tool_calls.getD [])
          st).2).status = none →
      runLoop llm observe mem reg ss maxIter iteration (remaining + 1) st
          pairs =
        runLoop llm observe mem reg ss maxIter (iteration + 1) remaining
          (execToolCalls reg
            ((llm (prepareMessages mem ss pairs) reg).tool_calls.getD [])
            st).2
          (pairs ++ [(llm (prepareMessages mem ss pairs) reg,
            ⟨some ((execToolCalls reg
                ((llm (prepareMessages mem ss pairs) reg).tool_calls.getD [])
                st).1.map Content.toolResult ++
              observe (iteration + 1))⟩)])) := by
  constructor
  · exact fun reg calls st h => execToolCalls_userOnly_state reg calls st h
  · intro llm observe mem reg ss maxIter iteration remaining st pairs hnone
    exact runLoop_step_continue llm observe mem reg ss maxIter iteration
      remaining st pairs hnone

/-- Witness for C3: the terminal user tool `t` stops its batch but leaves
the status unset, and the loop proceeds into the next iteration. -/
theorem claim_C3_witness :
    (execToolCalls (setupTools [egTerminalTool] none) [{ name := "t" }]
        {}).2 = ({} : TaskResult) ∧
    runLoop llmTerminalOnce (fun _ => []) defaultMemoryConfig
        (setupTools [egTerminalTool] none) [] 2 0 2 {} [] =
      runLoop llmTerminalOnce (fun _ => []) defaultMemoryConfig
        (setupTools [egTerminalTool] none) [] 2 1 1
        (execToolCalls (setupTools [egTerminalTool] none)
          ((llmTerminalOnce (prepareMessages defaultMemoryConfig [] [])
            (setupTools [egTerminalTool] none)).tool_calls.getD [])
          {}).2
        ([] ++ [(llmTerminalOnce (prepareMessages defaultMemoryConfig [] [])
            (setupTools [egTerminalTool] none),
          ⟨some ((execToolCalls (setupTools [egTerminalTool] none)
              ((llmTerminalOnce (prepareMessages defaultMemoryConfig [] [])
                (setupTools [egTerminalTool] none)).tool_calls.getD [])
              {}).1.map Content.toolResult ++ (fun _ : Nat => ([] : List Content)) 1)⟩)]) := by
  constructor
  · exact claim_C3_loop_exit_only_by_control.1
      (setupTools [egTerminalTool] none) [{ name := "t" }] {}
      (by
        intro c hc e hg
        simp at hc
        rw [hc] at hg
        have : e = RegEntry.user egTerminalTool := by
          simpa [setupTools, registryRegister, registryGet, RegEntry.name,
            egTerminalTool] using hg.symm
        rw [this]
        rfl)
  · exact claim_C3_loop_exit_only_by_control.2 llmTerminalOnce (fun _ => [])
      defaultMemoryConfig (setupTools [egTerminalTool] none) [] 2 0 1 {} []
      rfl

-- ======================================================================
-- Claim C4
-- ======================================================================

/-- **C4 is false on the code.**  In the concrete two-iteration run
`exC4Run`, iteration 1 calls the user tool `t` which returns
`terminal=true`; its terminal `ToolResult` sits in the first user message
(index 1 of four messages) and not in the final user message (index 3):
a terminal result of a non-control tool stops the batch but not the loop,
so it can appear in a non-final user message. -/
theorem claim_C4_counterexample :
    exC4Run.messages.map messageHasTerminalResult =
      [false, true, false, false] ∧
    exC4Run.messages.length = 4 := by
  constructor
  · rfl
  · rfl

/-- **C4 (amended).**  A terminal `ToolResult` of a *control* tool appears
only in the final user message: (i) when an iteration's dispatch sets the
shared result status (which per C3 only a control tool does), the loop
returns at once with that iteration's pair appended last, so the user
message holding the control tool's terminal result is the final message of
the run; and (ii) within any batch, every result after a terminal or error
result is the skipped result for its call.  A terminal or error result of a
non-control tool may appear in an earlier user message (see the
counterexample). -/
theorem claim_C4_amended_terminal_placement :
    (∀ (llm : List Message → ToolRegistry → ModelMessage)
      (observe : Nat → List Content) (mem : MemoryConfig)
      (reg : ToolRegistry) (ss : List Message)
      (maxIter iteration remaining : Nat) (st : TaskResult)
      (pairs : List Pair),
      ((execToolCalls reg
          ((llm (prepareMessages mem ss pairs) reg).tool_calls.getD [])
          st).2).status.isSome = true →
      runLoop llm observe mem reg ss maxIter iteration (remaining + 1) st
          pairs =
        ((execToolCalls reg
            ((llm (prepareMessages mem ss pairs) reg).tool_calls.getD [])
            st).2,
         pairs ++ [(llm (prepareMessages mem ss pairs) reg,
           ⟨some ((execToolCalls reg
               ((llm (prepareMessages mem ss pairs) reg).tool_calls.getD [])
               st).1.map Content.toolResult ++ observe (iteration + 1))⟩)],
         iteration + 1)) ∧
    (∀ (reg : ToolRegistry) (calls : List ToolCall) (st : TaskResult)
      (i j : Nat) (ri rj : ToolResult) (call : ToolCall), i < j →
      (execToolCalls reg calls st).1[i]? = some ri →
      (execToolCalls reg calls st).1[j]? = some rj →
      calls[j]? = some call →
      (ri.terminal = true ∨ ri.status = ToolResultStatus.error) →
      rj = mkSkipped call) := by
  constructor
  · intro llm observe mem reg ss maxIter iteration remaining st pairs hsome
    exact runLoop_step_stop llm observe mem reg ss maxIter iteration
      remaining st pairs hsome
  · intro reg calls st i j ri rj call hij hri hrj hcall hbad
    exact execToolCalls_skipped_after_stop reg calls st i j ri rj call
      hij hri hrj hcall hbad

/-- Witness for the amended C4: an `abort_work` dispatch sets the status,
and the loop returns at once with that pair as the final one. -/
theorem claim_C4_amended_witness :
    runLoop llmAbortEmpty (fun _ => []) defaultMemoryConfig
        (setupTools [] none) [] 3 0 3 {} [] =
      ((execToolCalls (setupTools [] none)
          ((llmAbortEmpty (prepareMessages defaultMemoryConfig [] [])
            (setupTools [] none)).tool_calls.getD [])
          {}).2,
       [] ++ [(llmAbortEmpty (prepareMessages defaultMemoryConfig [] [])
           (setupTools [] none),
         ⟨some ((execToolCalls (setupTools [] none)
             ((llmAbortEmpty (prepareMessages defaultMemoryConfig [] [])
               (setupTools [] none)).tool_calls.getD [])
             {}).1.map Content.toolResult ++
           (fun _ : Nat => ([] : List Content)) 1)⟩)],
       1) := by
  exact claim_C4_amended_terminal_placement.1 llmAbortEmpty (fun _ => [])
    defaultMemoryConfig (setupTools [] none) [] 3 0 2 {} [] rfl

-- ======================================================================
-- Claim C6
-- ======================================================================

/-- **C6 is false on the code.**  With `recent_window = 1` and two pairs
whose compaction is empty (no model text, no tool results), the assembled
sequence contains no synthesized summary user message at all, even though
`len(pairs) > recent_window`: it is just the two messages of the one recent
pair (the claimed shape would have three messages here).  The code inserts
the summary message only when the compaction text is non-empty
(`if summary:` in `_prepare_messages`). -/
theorem claim_C6_counterexample :
    prepareMessages oneWindowMemory [] [emptyPair, emptyPair] =
      [Message.model {}, Message.user {}] ∧
    (prepareMessages oneWindowMemory [] [emptyPair, emptyPair]).length = 2 ∧
    ([emptyPair, emptyPair] : List Pair).length >
      oneWindowMemory.recent_window := by
  refine ⟨rfl, rfl, ?_⟩
  show 2 > 1
  norm_num

/-- **C6 (amended).**  The assembled sequence is: the bootstrap messages,
then — when `len(pairs) > recent_window` *and the compaction of the evicted
pairs is non-empty* — a single synthesized user message
`"Previous actions in this session:\n<compact(old)>"`, then the last
`recent_window` pairs (lifespan-filtered); with
`len(pairs) <= recent_window`, no summary message and all pairs follow the
bootstrap.  Formalised as equality with the spec-side assembly
`assembleMessagesSpec`. -/
theorem claim_C6_amended_assembly (mem : MemoryConfig)
    (ss : List Message) (pairs : List Pair) :
    prepareMessages mem ss pairs = assembleMessagesSpec mem ss pairs := by
  by_cases h : pairs.length > mem.recent_window
  · by_cases hs :
        buildSummary (pairs.take (pairs.length - mem.recent_window)) = ""
    · simp [prepareMessages, assembleMessagesSpec, h, hs]
    · simp [prepareMessages, assembleMessagesSpec, h, hs]
  · simp [prepareMessages, assembleMessagesSpec, h]

-- ======================================================================
-- Claim C7
-- ======================================================================

lemma filterContentByLifespan_contentList (msg : UserMessage) (d : Int) :
    (filterContentByLifespan msg d).contentList =
      msg.contentList.filter (keepAt d) := by
  cases hm : msg.content with
  | none => simp [filterContentByLifespan, UserMessage.contentList, hm]
  | some cs =>
    cases cs with
    | nil => simp [filterContentByLifespan, UserMessage.contentList, hm]
    | cons c rest =>
      simp only [filterContentByLifespan, hm, UserMessage.contentList]
      cases hf : (c :: rest).filter (keepAt d) with
      | nil => simp [hf]
      | cons a l => simp [hf]

lemma prepareMessages_decomposition (mem : MemoryConfig)
    (ss : List Message) (pairs : List Pair) :
    prepareMessages mem ss pairs =
      ss ++
      (if pairs.length > mem.recent_window ∧
          buildSummary (pairs.take (pairs.length - mem.recent_window)) ≠ ""
       then
         [Message.user ⟨some [Content.text none none
           ("Previous actions in this session:\n" ++
             buildSummary
               (pairs.take (pairs.length - mem.recent_window)))]⟩]
       else []) ++
      ((if pairs.length > mem.recent_window then
          pairs.drop (pairs.length - mem.recent_window)
        else pairs).enum.flatMap fun ip =>
        [Message.model ip.2.1,
         Message.user (filterContentByLifespan ip.2.2
            (((if pairs.length > mem.recent_window then
                pairs.drop (pairs.length - mem.recent_window)
              else pairs).length : Int) - 1 - (ip.1 : Int)))]) := by
  by_cases h : pairs.length > mem.recent_window
  · by_cases hs :
        buildSummary (pairs.take (pairs.length - mem.recent_window)) = ""
    · simp [prepareMessages, h, hs]
    · simp [prepareMessages, h, hs]
  · simp [prepareMessages, h]

lemma flatMap_pairList_length {α : Type} (l : List α)
    (f g : α → Message) :
    (l.flatMap fun a => [f a, g a]).length = 2 * l.length := by
  induction l with
  | nil => rfl
  | cons a l ih =>
    simp only [List.flatMap_cons, List.length_append, ih, List.length_cons]
    simp
    ring

/-- **C7.** Lifespan filtering: (1) an item is kept at a distance iff its
lifespan is unset or the distance is below it; (2) a filtered user
message's content is exactly the kept items, and a fully filtered message
still has an (empty) content list; (3) the bootstrap messages pass through
unfiltered at the front; (4) the assembled sequence is the bootstrap, the
(never filtered) synthesized summary text message when present, and then
both messages of every recent pair with filtering applied only to the user
message of each recent pair at distance `len(recent) − 1 − i`; (5) every
recent pair contributes exactly two messages regardless of filtering — an
emptied user message is emitted, not elided. -/
theorem claim_C7_lifespan_filtering :
    (∀ (d : Int) (c : Content),
      keepAt d c = true ↔
        (c.lifespanOf = none ∨ ∃ l, c.lifespanOf = some l ∧ d < l)) ∧
    (∀ (msg : UserMessage) (d : Int),
      (filterContentByLifespan msg d).contentList =
        msg.contentList.filter (keepAt d)) ∧
    (∀ (mem : MemoryConfig) (ss : List Message) (pairs : List Pair),
      (prepareMessages mem ss pairs).take ss.length = ss) ∧
    (∀ (mem : MemoryConfig) (ss : List Message) (pairs : List Pair),
      prepareMessages mem ss pairs =
        ss ++
        (if pairs.length > mem.recent_window ∧
            buildSummary (pairs.take (pairs.length - mem.recent_window)) ≠ ""
         then
           [Message.user ⟨some [Content.text none none
             ("Previous actions in this session:\n" ++
               buildSummary
                 (pairs.take (pairs.length - mem.recent_window)))]⟩]
         else []) ++
        ((if pairs.length > mem.recent_window then
            pairs.drop (pairs.length - mem.recent_window)
          else pairs).enum.flatMap fun ip =>
          [Message.model ip.2.1,
           Message.user (filterContentByLifespan ip.2.2
              (((if pairs.length > mem.recent_window then
                  pairs.drop (pairs.length - mem.recent_window)
                else pairs).length : Int) - 1 - (ip.1 : Int)))])) ∧
    (∀ (mem : MemoryConfig) (ss : List Message) (pairs : List Pair),
      (prepareMessages mem ss pairs).length =
        ss.length +
        (if pairs.length > mem.recent_window ∧
            buildSummary (pairs.take (pairs.length - mem.recent_window)) ≠ ""
         then 1 else 0) +
        2 * (if pairs.length > mem.recent_window then mem.recent_window
             else pairs.length)) := by
  refine ⟨?_, filterContentByLifespan_contentList, ?_, ?_, ?_⟩
  · intro d c
    cases hl : c.lifespanOf with
    | none => simp [keepAt, hl]
    | some l => simp [keepAt, hl]
  · intro mem ss pairs
    rw [prepareMessages_decomposition, List.append_assoc]
    exact List.take_left ss _
  · exact prepareMessages_decomposition
  · intro mem ss pairs
    rw [prepareMessages_decomposition]
    simp only [List.length_append, flatMap_pairList_length, List.enum_length]
    by_cases h : pairs.length > mem.recent_window
    · by_cases hs :
          buildSummary (pairs.take (pairs.length - mem.recent_window)) = ""
      · simp [h, hs, List.length_drop,
          Nat.sub_sub_self (Nat.le_of_lt h)]
      · simp [h, hs, List.length_drop,
          Nat.sub_sub_self (Nat.le_of_lt h)]
    · simp [h]

-- ======================================================================
-- Claim C8
-- ======================================================================

/-- **C8 is false as stated on one point.**  When the model aborts with an
*empty* reason string, the run's feedback is `some ""`, but the raised
error carries the fallback text `"Task aborted"` — not the run's feedback —
because the source raises `TaskAbortedError(run.feedback or "Task aborted")`
and the empty string is falsy. -/
theorem claim_C8_counterexample :
    (Agent.doTask egAgent llmAbortEmpty (fun _ => []) "task" 1 none).2 =
      DoOutcome.taskAborted "Task aborted" ∧
    (TaskRunner.run llmAbortEmpty [] (fun _ => []) "sys"
        defaultMemoryConfig "task" 1 [] none).result.feedback = some "" ∧
    "Task aborted" ≠ "" := by
  refine ⟨rfl, rfl, by decide⟩

/-- **C8 (amended).**  For every call of `Agent.do`: the resulting `Run` is
appended to `previous_runs` exactly when the agent is stateful (also for
aborted runs — the append happens before the abort check); a `TaskAborted`
error is raised iff the run's status is aborted, carrying the run's
feedback when that feedback is a non-empty string and the fixed text
`"Task aborted"` otherwise (Python `or` semantics); a run whose status is
not aborted is returned normally. -/
theorem claim_C8_agent_do (a : Agent)
    (llm : List Message → ToolRegistry → ModelMessage)
    (observe : Nat → List Content) (task : String) (maxIterations : Nat)
    (outputSchema : Option OutputSchema) (run : Run)
    (hrun : run = TaskRunner.run llm a.tools observe a.system_prompt
      a.memory task maxIterations
      (if a.stateful then a.previous_runs else []) outputSchema) :
    (a.stateful = true →
      (Agent.doTask a llm observe task maxIterations
          outputSchema).1.previous_runs = a.previous_runs ++ [run]) ∧
    (a.stateful = false →
      (Agent.doTask a llm observe task maxIterations outputSchema).1 = a) ∧
    (run.result.status = some TaskStatus.aborted →
      (Agent.doTask a llm observe task maxIterations outputSchema).2 =
        DoOutcome.taskAborted
          (match run.result.feedback with
           | some f => if f = "" then "Task aborted" else f
           | none => "Task aborted")) ∧
    (∀ f : String, run.result.feedback = some f → f ≠ "" →
      run.result.status = some TaskStatus.aborted →
      (Agent.doTask a llm observe task maxIterations outputSchema).2 =
        DoOutcome.taskAborted f) ∧
    (run.result.status ≠ some TaskStatus.aborted →
      (Agent.doTask a llm observe task maxIterations outputSchema).2 =
        DoOutcome.ok run) := by
  subst hrun
  refine ⟨?_, ?_, ?_, ?_, ?_⟩
  · intro hs
    simp only [Agent.doTask, Agent.runTask, hs, if_true]
    split <;> rfl
  · intro hs
    simp only [Agent.doTask, Agent.runTask, hs, Bool.false_eq_true,
      if_false]
    split <;> rfl
  · intro hst
    simp [Agent.doTask, Agent.runTask, hst]
  · intro f hf hne hst
    simp [Agent.doTask, Agent.runTask, hst, hf, hne]
  · intro hst
    simp [Agent.doTask, Agent.runTask, hst]

/-- Witness for C8: a stateful agent whose model completes immediately gets
the run appended to its history and returned normally. -/
theorem claim_C8_witness :
    (Agent.doTask egAgent llmCompleteDone (fun _ => []) "task" 1
        none).1.previous_runs =
      [] ++ [TaskRunner.run llmCompleteDone [] (fun _ => []) "sys"
        defaultMemoryConfig "task" 1 [] none] ∧
    (Agent.doTask egAgent llmCompleteDone (fun _ => []) "task" 1 none).2 =
      DoOutcome.ok (TaskRunner.run llmCompleteDone [] (fun _ => []) "sys"
        defaultMemoryConfig "task" 1 [] none) := by
  have h := claim_C8_agent_do egAgent llmCompleteDone (fun _ => []) "task" 1
    none (TaskRunner.run llmCompleteDone [] (fun _ => []) "sys"
      defaultMemoryConfig "task" 1 [] none) rfl
  exact ⟨h.1 rfl, h.2.2.2.2 (by decide)⟩

-- ======================================================================
-- Claims C9 and C10
-- ======================================================================

lemma replay_eq_replayCalls (tools : List Tool) (run : Run) :
    replay tools run = replayCalls tools (extractToolCalls run) := by
  unfold replay
  cases h : extractToolCalls run with
  | nil => rfl
  | cons c rest => rfl

lemma executeToolCallRedo_notFound (tools : List Tool) (c : ToolCall)
    (h : redoLookup tools c.name = none) :
    executeToolCallRedo tools c =
      Except.error (ReplayError.valueError
        ("Tool " ++ apos ++ c.name ++ apos ++
          " not found in tool registry")) := by
  simp [executeToolCallRedo, h]

lemma executeToolCallRedo_errorResult (tools : List Tool) (c : ToolCall)
    (t : Tool) (r : ToolResult)
    (hl : redoLookup tools c.name = some t)
    (hx : t.exec c.arguments = Except.ok r)
    (hs : r.status = ToolResultStatus.error) :
    executeToolCallRedo tools c =
      Except.error (ReplayError.runtimeError
        ("Tool " ++ apos ++ c.name ++ apos ++ " failed: " ++
          pyStr r.error)) := by
  simp [executeToolCallRedo, hl, hx, hs]

lemma executeToolCallRedo_ok (tools : List Tool) (c : ToolCall)
    (t : Tool) (r : ToolResult)
    (hl : redoLookup tools c.name = some t)
    (hx : t.exec c.arguments = Except.ok r)
    (hs : r.status ≠ ToolResultStatus.error) :
    executeToolCallRedo tools c = Except.ok r := by
  simp [executeToolCallRedo, hl, hx, hs]

lemma replayCalls_ok_iff (tools : List Tool) :
    ∀ calls : List ToolCall,
      replayCalls tools calls = Except.ok () ↔ CallsOk tools calls := by
  intro calls
  induction calls with
  | nil =>
    constructor
    · intro _; exact CallsOk.nil
    · intro _; rfl
  | cons c rest ih =>
    constructor
    · intro h
      simp only [replayCalls] at h
      cases he : executeToolCallRedo tools c with
      | error e => rw [he] at h; exact absurd h (by simp)
      | ok r =>
        rw [he] at h
        cases hl : redoLookup tools c.name with
        | none =>
          rw [executeToolCallRedo_notFound tools c hl] at he
          exact Except.noConfusion he
        | some t =>
          cases hx : t.exec c.arguments with
          | error m =>
            have : executeToolCallRedo tools c =
                Except.error (ReplayError.execError m) := by
              simp [executeToolCallRedo, hl, hx]
            rw [this] at he
            exact Except.noConfusion he
          | ok res =>
            by_cases hs : res.status = ToolResultStatus.error
            · rw [executeToolCallRedo_errorResult tools c t res hl hx hs]
                at he
              exact Except.noConfusion he
            · rw [executeToolCallRedo_ok tools c t res hl hx hs] at he
              have hres : res = r := by simpa using he
              subst hres
              exact CallsOk.cons c rest t res hl hx hs (ih.mp h)
    · intro h
      cases h with
      | cons _ _ t r hl hx hs hrest =>
        simp only [replayCalls, executeToolCallRedo_ok tools c t r hl hx hs]
        exact ih.mpr hrest

lemma redoLookup_none_of_names (tools : List Tool) (n : String)
    (h : ∀ t ∈ tools, t.name ≠ n) : redoLookup tools n = none := by
  induction tools with
  | nil => rfl
  | cons t ts ih =>
    have hn : t.name ≠ n := h t (by simp)
    unfold redoLookup
    simp only [List.foldl_cons, if_neg hn]
    exact ih (fun u hu => h u (by simp [hu]))

lemma replayCalls_append_of_ok (tools : List Tool) :
    ∀ (pre rest : List ToolCall), CallsOk tools pre →
      replayCalls tools (pre ++ rest) = replayCalls tools rest := by
  intro pre
  induction pre with
  | nil => intro rest _; rfl
  | cons c pre ih =>
    intro rest h
    cases h with
    | cons _ _ t r hl hx hs hrest =>
      simp only [List.cons_append, replayCalls,
        executeToolCallRedo_ok tools c t r hl hx hs]
      exact ih rest hrest

lemma CallsOk_append_mid (tools : List Tool) :
    ∀ (pre : List ToolCall) (c : ToolCall) (post : List ToolCall),
      CallsOk tools (pre ++ c :: post) →
      ∃ t, redoLookup tools c.name = some t := by
  intro pre
  induction pre with
  | nil =>
    intro c post h
    cases h with
    | cons _ _ t r hl _ _ _ => exact ⟨t, hl⟩
  | cons p pre ih =>
    intro c post h
    cases h with
    | cons _ _ _ _ _ _ _ hrest => exact ih c post hrest

/-- **C9.** Replay: (i) `replay` is exactly the sequential execution of the
tool calls extracted from the run's model messages in message order, with
no model involved; (ii) a call whose name does not resolve in the replay
tool map fails with `ValueError "Tool '<name>' not found in tool registry"`,
stopping the replay there; (iii) a call whose result has status error fails
with `"Tool '<name>' failed: <error>"`, stopping the replay there; (iv) the
replay succeeds iff every extracted call executes without error. -/
theorem claim_C9_replay_semantics (tools : List Tool) :
    (∀ run : Run, replay tools run =
      replayCalls tools (run.messages.flatMap Message.modelToolCalls)) ∧
    (∀ (c : ToolCall) (rest : List ToolCall),
      redoLookup tools c.name = none →
      replayCalls tools (c :: rest) =
        Except.error (ReplayError.valueError
          ("Tool " ++ apos ++ c.name ++ apos ++
            " not found in tool registry"))) ∧
    (∀ (c : ToolCall) (rest : List ToolCall) (t : Tool) (r : ToolResult),
      redoLookup tools c.name = some t →
      t.exec c.arguments = Except.ok r →
      r.status = ToolResultStatus.error →
      replayCalls tools (c :: rest) =
        Except.error (ReplayError.runtimeError
          ("Tool " ++ apos ++ c.name ++ apos ++ " failed: " ++
            pyStr r.error))) ∧
    (∀ run : Run, replay tools run = Except.ok () ↔
      CallsOk tools (extractToolCalls run)) := by
  refine ⟨fun run => replay_eq_replayCalls tools run, ?_, ?_, ?_⟩
  · intro c rest h
    simp only [replayCalls, executeToolCallRedo_notFound tools c h]
  · intro c rest t r hl hx hs
    simp only [replayCalls,
      executeToolCallRedo_errorResult tools c t r hl hx hs]
  · intro run
    rw [replay_eq_replayCalls]
    exact replayCalls_ok_iff tools (extractToolCalls run)

/-- Witness for C9: replaying a call to an unknown tool against an empty
tool list raises the exact `ValueError` text. -/
theorem claim_C9_witness :
    replayCalls [] [{ name := "ghost" }] =
      Except.error (ReplayError.valueError
        ("Tool " ++ apos ++ "ghost" ++ apos ++
          " not found in tool registry")) := by
  exact (claim_C9_replay_semantics []).2.1 { name := "ghost" } [] rfl

/-- **C10.** For every `Run` whose recorded tool calls include a
control-tool call (`complete_work` or `abort_work`) — and user tools that
do not reuse those reserved names — `Agent.redo` cannot succeed, and upon
reaching that call (all earlier calls having executed without error) it
raises `ValueError "Tool '<name>' not found in tool registry"`: the replay
tool map is built from the user-supplied tools only, while control tools
exist only inside a `TaskRunner`'s per-run registry (`setupTools`). -/
theorem claim_C10_redo_control_tool_missing (a : Agent) (run : Run)
    (pre post : List ToolCall) (c : ToolCall)
    (hnames : ∀ t ∈ a.tools,
      t.name ≠ "complete_work" ∧ t.name ≠ "abort_work")
    (hsplit : extractToolCalls run = pre ++ c :: post)
    (hctrl : c.name = "complete_work" ∨ c.name = "abort_work") :
    Agent.redo a run ≠ Except.ok () ∧
    (CallsOk a.tools pre →
      Agent.redo a run = Except.error (ReplayError.valueError
        ("Tool " ++ apos ++ c.name ++ apos ++
          " not found in tool registry"))) := by
  have hnone : redoLookup a.tools c.name = none := by
    apply redoLookup_none_of_names
    intro t ht
    cases hctrl with
    | inl h => rw [h]; exact (hnames t ht).1
    | inr h => rw [h]; exact (hnames t ht).2
  constructor
  · intro hok
    rw [Agent.redo, replay_eq_replayCalls, hsplit] at hok
    obtain ⟨t, hl⟩ := CallsOk_append_mid a.tools pre c post
      ((replayCalls_ok_iff a.tools _).mp hok)
    rw [hnone] at hl
    exact Option.noConfusion hl
  · intro hpre
    rw [Agent.redo, replay_eq_replayCalls, hsplit,
      replayCalls_append_of_ok a.tools pre (c :: post) hpre]
    simp only [replayCalls, executeToolCallRedo_notFound a.tools c hnone]

/-- Witness for C10: redoing a run that recorded a `complete_work` call,
with no user tools, raises the exact `ValueError` text at that call. -/
theorem claim_C10_witness :
    Agent.redo egAgent
      { result := {}
        action_log := ""
        messages := [Message.model
          { tool_calls := some [{ name := "complete_work" }] }] } =
      Except.error (ReplayError.valueError
        ("Tool " ++ apos ++ "complete_work" ++ apos ++
          " not found in tool registry")) := by
  exact (claim_C10_redo_control_tool_missing egAgent
    { result := {}
      action_log := ""
      messages := [Message.model
        { tool_calls := some [{ name := "complete_work" }] }] }
    [] [] { name := "complete_work" }
    (by intro t ht; simp [egAgent] at ht) rfl (Or.inl rfl)).2 CallsOk.nil
